import Mathlib

/-!
Verification of the candidate-scoring and filtering core of the
`project-candidate-emails-extractor` repository, as a shallow embedding.

Conventions of the embedding:
* Python strings are Lean `String`s; every operation is implemented on the
  underlying `List Char` (`String.data`) so that all definitions evaluate by
  kernel reduction.
* The confidence scores in `ner_util.py` are decimal constants (0.95, 0.90, …)
  combined only by addition, comparison and clamping; they are represented
  exactly as integers in hundredths (0.95 ↦ 95, the threshold 0.70 ↦ 70,
  1.0 ↦ 100), so every arithmetic step of the source is mirrored exactly.
* External collaborators (the spaCy NER model, `tldextract`, the regex span
  extractor, `parseaddr`, a compiled regex and the database-backed filter
  repository) are parameters of the embedded functions: each is passed in as a
  function argument, exactly at the call boundary the source uses.
-/

/-- Python `needle in hay` (substring test). -/
def strContains (hay needle : String) : Bool :=
  (List.range (hay.data.length + 1)).any (fun i => needle.data.isPrefixOf (hay.data.drop i))

/-- Python `s.lower()` (ASCII-faithful). -/
def pyLower (s : String) : String := String.mk (s.data.map Char.toLower)

/-- Python `s.strip()` with no arguments: remove leading/trailing whitespace. -/
def pyTrim (s : String) : String :=
  String.mk (((s.data.dropWhile Char.isWhitespace).reverse.dropWhile Char.isWhitespace).reverse)

/-- Split a character list at every character satisfying `p`, keeping empty
pieces — the semantics of Python `re.split` / `str.split(sep)` for a
single-character separator class. -/
def splitChar (p : Char → Bool) : List Char → List (List Char)
  | [] => [[]]
  | c :: cs =>
    let r := splitChar p cs
    if p c then [] :: r
    else
      match r with
      | [] => [[c]]
      | t :: ts => (c :: t) :: ts

/-- Python `s.split(ch)` (split on every occurrence, keeping empty pieces). -/
def pySplitAll (ch : Char) (s : String) : List String :=
  (splitChar (fun c => c = ch) s.data).map String.mk

/-- Python `s.split()` with no arguments: split on whitespace runs, dropping
empty pieces. -/
def pySplitWords (s : String) : List String :=
  ((splitChar (fun c => c.isWhitespace) s.data).filter (fun w => w ≠ [])).map String.mk

/-- Python `s.capitalize()`: first character upper-cased, the rest lower-cased. -/
def pyCapitalize (s : String) : String :=
  match s.data with
  | [] => ""
  | c :: cs => String.mk (c.toUpper :: cs.map Char.toLower)

/-- Join pieces with a single joining character (used to rebuild the remainder
of a `split(ch, 1)` and to re-join words with spaces). -/
def joinChar (ch : Char) : List (List Char) → List Char
  | [] => []
  | [x] => x
  | x :: xs => x ++ ch :: joinChar ch xs

/-- Python `' '.join(words)`. -/
def joinWithSpace (ws : List String) : String :=
  String.mk (joinChar ' ' (ws.map String.data))

namespace NerUtil

/-!
Embedding of `src/email-extractor/utils/extraction/ner_util.py`
(the candidate-scoring company-extraction engine).
-/

/-- `CompanyCandidate` (ner_util.py lines 12-16). `type` is the candidate's
kind: `"vendor" | "client" | "ats" | "unknown"`. Confidence in hundredths. -/
structure CompanyCandidate where
  name : String
  source : String
  confidence : ℤ
  type : String
deriving DecidableEq

/-- `COMPANY_SOURCE_SCORES` (ner_util.py lines 19-25), in hundredths. -/
def COMPANY_SOURCE_SCORES : List (String × ℤ) :=
  [("span", 95), ("domain", 90), ("signature", 80), ("body_intro", 65), ("ner", 50)]

/-- `COMPANY_SOURCE_SCORES.get(source, 0.50)` (ner_util.py line 314). -/
def sourceScore (source : String) : ℤ :=
  (COMPANY_SOURCE_SCORES.lookup source).getD 50

/-- `COMPANY_PENALTIES['ats_domain']` = −0.40 (ner_util.py line 28). -/
def atsDomainPenalty : ℤ := -40

/-- `COMPANY_PENALTIES['contains_client']` = −0.50 (ner_util.py line 29). -/
def containsClientPenalty : ℤ := -50

/-- `COMPANY_PENALTIES['generic_term']` = −0.30 (ner_util.py line 30). -/
def genericTermPenalty : ℤ := -30

/-- `COMPANY_PENALTIES['too_short']` = −0.20 (ner_util.py line 31). -/
def tooShortPenalty : ℤ := -20

/-- `MIN_COMPANY_SCORE` = 0.70 (ner_util.py line 34). -/
def MIN_COMPANY_SCORE : ℤ := 70

/-- The CSV-loaded keyword lists the scoring engine reads
(`self.ats_domains`, `self.client_keywords`, `self.generic_terms`). -/
structure KeywordLists where
  atsDomains : List String
  clientKeywords : List String
  genericTerms : List String
deriving DecidableEq

/-- `_contains_client_language` (ner_util.py lines 295-301). -/
def containsClientLanguage (clientKeywords : List String) (text : String) : Bool :=
  if text = "" ∨ clientKeywords = [] then false
  else clientKeywords.any (fun kw => strContains (pyLower text) kw)

/-- `_is_ats_domain` (ner_util.py lines 303-309). -/
def isAtsDomain (atsDomains : List String) (domain : String) : Bool :=
  if domain = "" ∨ atsDomains = [] then false
  else atsDomains.any (fun ats => strContains (pyLower domain) ats)

/-- The client-language condition of `_calculate_company_score`
(ner_util.py line 323): detected in the context or in the value. -/
def clientDetected (kw : KeywordLists) (c : CompanyCandidate) (context : String) : Bool :=
  containsClientLanguage kw.clientKeywords context || containsClientLanguage kw.clientKeywords c.name

/-- The generic-term condition of `_calculate_company_score`
(ner_util.py line 329): list nonempty and some term occurs in the value. -/
def genericDetected (kw : KeywordLists) (c : CompanyCandidate) : Bool :=
  decide (kw.genericTerms ≠ []) && kw.genericTerms.any (fun t => strContains (pyLower c.name) t)

/-- `_calculate_company_score` (ner_util.py lines 311-338). Returns the
clamped score together with the candidate's (possibly reclassified) kind:
the source mutates `candidate['type'] = 'client'` when client language is
detected. -/
def calculateCompanyScore (kw : KeywordLists) (c : CompanyCandidate) (context : String) :
    ℤ × String :=
  let score := sourceScore c.source
  let score := if c.type = "ats" then score + atsDomainPenalty else score
  let clientHit := clientDetected kw c context
  let score := if clientHit then score + containsClientPenalty else score
  let ty := if clientHit then "client" else c.type
  let score := if genericDetected kw c then score + genericTermPenalty else score
  let score := if c.name.data.length < 3 then score + tooShortPenalty else score
  (max 0 (min 100 score), ty)

/-- A candidate after `candidate['confidence'] = self._calculate_company_score(candidate, ctx)`
(which also may have rewritten `candidate['type']`). -/
def scoreCandidate (kw : KeywordLists) (c : CompanyCandidate) (context : String) :
    CompanyCandidate :=
  ⟨c.name, c.source, (calculateCompanyScore kw c context).1, (calculateCompanyScore kw c context).2⟩

/-- `_clean_company_name` (ner_util.py lines 595-613): whitespace
normalisation, right-strip of `,;: `, then the first matching CSV suffix
mapping is applied (Python `company[:-len(old)] + new`, including the
`[:-0] = ''` edge case for an empty suffix key). -/
def cleanCompanyName (suffixes : List (String × String)) (company : String) : String :=
  if company = "" then company
  else
    let company := joinWithSpace (pySplitWords company)
    let company := String.mk
      ((company.data.reverse.dropWhile (fun c => [',', ';', ':', ' '].contains c)).reverse)
    match suffixes.find? (fun p => p.1.data.isSuffixOf (pyLower company).data) with
    | some p =>
        let kept := if p.1.data.length = 0 then ([] : List Char)
          else company.data.take (company.data.length - p.1.data.length)
        String.mk (kept ++ p.2.data)
    | none => company

/-- `extract_company_from_domain` (ner_util.py lines 375-423).
`repoCheck` stands for `self.filter_repo.check_email` and `tldRoot` for
`tldextract.extract(full_domain).domain` — both external collaborators. -/
def extractCompanyFromDomain (kw : KeywordLists) (suffixes : List (String × String))
    (repoCheck : String → Option String) (tldRoot : String → String)
    (email : String) : Option String :=
  if email.data = [] ∨ ¬ email.data.contains '@' then none
  else
    match pySplitAll '@' email with
    | _ :: fullDomain :: _ =>
      if repoCheck email = some "block" then none
      else
        let companyName := tldRoot fullDomain
        if companyName = "" then none
        else if isAtsDomain kw.atsDomains fullDomain then none
        else
          let companyName :=
            String.mk (companyName.data.map (fun c => if c = '-' ∨ c = '_' then ' ' else c))
          let companyName := joinWithSpace ((pySplitWords companyName).map pyCapitalize)
          some (cleanCompanyName suffixes companyName)
    | _ => none

/-- The external extraction collaborators of `extract_company_with_scoring`:
span/regex extraction over the HTML, signature parsing and spaCy NER over the
body text, `tldextract`, and the DB-backed filter repository. Each is a pure
function of its text input (they hold no per-message state in the source). -/
structure ExternalNLP where
  spanCompany : String → Option String
  sigCompany : String → Option String
  nerCompany : String → Option String
  tldRoot : String → String
  repoCheck : String → Option String

/-- Candidate 1 of `extract_company_with_scoring` (ner_util.py lines 509-521):
HTML span extraction, scored against the html as context. -/
def spanCandidate (kw : KeywordLists) (nlp : ExternalNLP) (html : Option String) :
    Option CompanyCandidate :=
  match html with
  | some h =>
    if h ≠ "" then
      match nlp.spanCompany h with
      | some comp => if comp ≠ "" then some (scoreCandidate kw ⟨comp, "span", 0, "vendor"⟩ h) else none
      | none => none
    else none
  | none => none

/-- Candidate 2 of `extract_company_with_scoring` (ner_util.py lines 523-538):
domain extraction; kind is `ats` when `_is_ats_domain(full_domain)` else
`vendor`; scored against the body text. -/
def domainCandidate (kw : KeywordLists) (suffixes : List (String × String))
    (nlp : ExternalNLP) (text : String) (email : Option String) :
    Option CompanyCandidate :=
  match email with
  | some e =>
    if e ≠ "" then
      match extractCompanyFromDomain kw suffixes nlp.repoCheck nlp.tldRoot e with
      | some comp =>
        if comp ≠ "" then
          match pySplitAll '@' e with
          | _ :: fullDomain :: _ =>
            let candidateType := if isAtsDomain kw.atsDomains fullDomain then "ats" else "vendor"
            some (scoreCandidate kw ⟨comp, "domain", 0, candidateType⟩ text)
          | _ => none
        else none
      | none => none
    else none
  | none => none

/-- Candidate 3 of `extract_company_with_scoring` (ner_util.py lines 540-551):
signature extraction, kind `unknown`, scored against the body text. -/
def sigCandidate (kw : KeywordLists) (nlp : ExternalNLP) (text : String) :
    Option CompanyCandidate :=
  match nlp.sigCompany text with
  | some comp => if comp ≠ "" then some (scoreCandidate kw ⟨comp, "signature", 0, "unknown"⟩ text) else none
  | none => none

/-- Candidate 4 of `extract_company_with_scoring` (ner_util.py lines 553-564):
NER extraction, kind `unknown`, scored against the body text. -/
def nerCandidate (kw : KeywordLists) (nlp : ExternalNLP) (text : String) :
    Option CompanyCandidate :=
  match nlp.nerCompany text with
  | some comp => if comp ≠ "" then some (scoreCandidate kw ⟨comp, "ner", 0, "unknown"⟩ text) else none
  | none => none

/-- The candidate list accumulated by `extract_company_with_scoring`
(ner_util.py lines 506-564), in source order. -/
def buildCandidates (kw : KeywordLists) (suffixes : List (String × String))
    (nlp : ExternalNLP) (text : String) (email html : Option String) :
    List CompanyCandidate :=
  (spanCandidate kw nlp html).toList
    ++ (domainCandidate kw suffixes nlp text email).toList
    ++ (sigCandidate kw nlp text).toList
    ++ (nerCandidate kw nlp text).toList

/-- Descending-by-confidence order used by
`valid_candidates.sort(key=lambda x: x['confidence'], reverse=True)`. -/
def candGE (a b : CompanyCandidate) : Prop := b.confidence ≤ a.confidence

instance : DecidableRel candGE := fun a b => Int.decLe b.confidence a.confidence

instance : IsTotal CompanyCandidate candGE := ⟨fun a b => le_total b.confidence a.confidence⟩

instance : IsTrans CompanyCandidate candGE := ⟨fun _ _ _ h1 h2 => le_trans h2 h1⟩

/-- Stable sort by confidence descending (Python `list.sort` is stable). -/
def sortDesc (l : List CompanyCandidate) : List CompanyCandidate :=
  List.insertionSort candGE l

/-- The tie-break scan of `extract_company_with_scoring`
(ner_util.py lines 579-586): walk the candidates below the winner; the first
`vendor` candidate within 0.15 of a `client` winner is promoted. -/
def vendorOverride (best : CompanyCandidate) : List CompanyCandidate → CompanyCandidate
  | [] => best
  | c :: cs =>
    if c.type = "vendor" ∧ best.type = "client" ∧ best.confidence - 15 ≤ c.confidence
    then c
    else vendorOverride best cs

/-- The selection stage of `extract_company_with_scoring`
(ner_util.py lines 566-589): drop candidates below `MIN_COMPANY_SCORE`, sort
by confidence descending, apply the vendor-over-client override, and return
the winning candidate (`None` when no candidate survives). -/
def resolveCandidate (cs : List CompanyCandidate) : Option CompanyCandidate :=
  match sortDesc (cs.filter (fun c => MIN_COMPANY_SCORE ≤ c.confidence)) with
  | [] => none
  | best :: rest => some (vendorOverride best rest)

/-- `extract_company_with_scoring` (ner_util.py lines 491-593): build the
candidates, resolve, return the winner's name. -/
def extractCompanyWithScoring (kw : KeywordLists) (suffixes : List (String × String))
    (nlp : ExternalNLP) (text : String) (email html : Option String) : Option String :=
  (resolveCandidate (buildCandidates kw suffixes nlp text email html)).map (fun c => c.name)

/-- The mutable state of a `SpacyNERExtractor` instance that survives across
calls: the keyword lists and suffix mappings loaded once in `__init__`.
No method of the class assigns to these fields after `__init__`
(the only mutation in the file, `candidate['type'] = 'client'`, targets a
dict created fresh inside the call). -/
structure ExtractorState where
  kw : KeywordLists
  suffixes : List (String × String)

/-- `extract_company_with_scoring` as a state-passing computation over the
instance state: the result, paired with the state after the call. -/
def extractCompanyWithScoringRun (s : ExtractorState) (nlp : ExternalNLP)
    (text : String) (email html : Option String) : Option String × ExtractorState :=
  (extractCompanyWithScoring s.kw s.suffixes nlp text email html, s)

end NerUtil

namespace BotFilters

/-!
Embedding of `src/email-extraction-bot/utils/filters/email_filters.py`
(DB-rule-driven sender classification).
-/

/-- A DB-loaded sender rule (email_filters.py lines 69-77); `keywords` are
already stripped and lower-cased by `_load_rules_from_db`. For `regex` rules
the keyword string stands for the compiled pattern, matched through the
abstract matcher passed to `checkSender`. -/
structure Rule where
  category : String
  match_type : String
  action : String
  priority : ℤ
  keywords : List String
deriving DecidableEq

/-- `_extract_email` (email_filters.py lines 114-117), parameterised over the
address component returned by `parseaddr(from_header)`. -/
def extractEmail (parsedAddr : String) : Option String :=
  let e := pyTrim (pyLower parsedAddr)
  if e.data.contains '@' then some e else none

/-- `email.split("@", 1)`: local part and (rest re-joined) domain. -/
def splitLocalDomain (email : String) : String × String :=
  match splitChar (fun c => c = '@') email.data with
  | [] => ("", "")
  | x :: rest => (String.mk x, String.mk (joinChar '@' (rest.map id)))

/-- `_looks_like_random_token` (email_filters.py lines 119-124): length ≥ 10
with a digit, or a pure lowercase-hex string of length ≥ 8. -/
def looksLikeRandomToken (t : String) : Bool :=
  (decide (10 ≤ t.data.length) && t.data.any Char.isDigit)
    || (decide (8 ≤ t.data.length)
        && t.data.all (fun c => c.isDigit || (decide (97 ≤ c.toNat) && decide (c.toNat ≤ 102))))

/-- `_rule_matches` (email_filters.py lines 126-138); `rmatch pattern email`
stands for `compiled_pattern.search(email)` of a `regex` rule. -/
def ruleMatches (rmatch : String → String → Bool) (email lpart domain : String)
    (r : Rule) : Bool :=
  r.keywords.any (fun kw =>
    if r.match_type = "exact" then email = kw ∨ domain = kw ∨ lpart = kw
    else if r.match_type = "contains" then strContains email kw
    else if r.match_type = "regex" then rmatch kw email
    else false)

/-- The fallback tokens: `re.split(r"[._\-+]", local)` (email_filters.py line 177). -/
def fallbackTokens (email : String) : List String :=
  (splitChar (fun c => c = '.' ∨ c = '_' ∨ c = '-' ∨ c = '+') (splitLocalDomain email).1.data).map
    String.mk

/-- `check_sender` (email_filters.py lines 161-180), parameterised over the
`parseaddr` result and the regex matcher. The rule list is the one the
instance holds (already priority-ordered by the DB query). -/
def checkSender (rmatch : String → String → Bool) (rules : List Rule)
    (parsedAddr : String) : String :=
  match extractEmail parsedAddr with
  | none => "block"
  | some email =>
    match rules.find? (fun r =>
        ruleMatches rmatch email (splitLocalDomain email).1 (splitLocalDomain email).2 r) with
    | some r => r.action
    | none => if (fallbackTokens email).any looksLikeRandomToken then "block" else "allow"

/-- Ascending-priority order of the `ORDER BY priority ASC` rule load. -/
def ruleLE (a b : Rule) : Prop := a.priority ≤ b.priority

instance : DecidableRel ruleLE := fun a b => Int.decLe a.priority b.priority

instance : IsTotal Rule ruleLE := ⟨fun a b => le_total a.priority b.priority⟩

instance : IsTrans Rule ruleLE := ⟨fun _ _ _ h1 h2 => le_trans h1 h2⟩

/-- Stable sort of a rule list by ascending priority (the claim's
"priority sorting" of an arbitrarily ordered rule set). -/
def sortRules (l : List Rule) : List Rule := List.insertionSort ruleLE l

end BotFilters

namespace SrcRules

/-!
Embedding of `src/src/extractor/filtering/rules.py`
(keyword-count recruiter classification).
-/

/-- The hit count `sum(1 for kw in kws if kw in text)` of
`_classify_with_rules` (rules.py lines 56, 60, 61). -/
def countHits (kws : List String) (text : String) : ℕ :=
  (kws.filter (fun kw => strContains text kw)).length

/-- The combined text `f"{subject_lower} {body_lower}"` (rules.py line 54). -/
def combinedText (subject body : String) : String :=
  String.mk ((pyLower subject).data ++ ' ' :: (pyLower body).data)

/-- `_classify_with_rules` (rules.py lines 50-69). -/
def classifyWithRules (recruiterKeywords antiRecruiterKeywords : List String)
    (subject body : String) : Bool :=
  let subjectLower := pyLower subject
  let bodyLower := pyLower body
  let text := combinedText subject body
  let antiKeywordCount := countHits antiRecruiterKeywords text
  if 4 ≤ antiKeywordCount then false
  else
    let subjectKeywordCount := countHits recruiterKeywords subjectLower
    let bodyKeywordCount := countHits recruiterKeywords bodyLower
    if 1 ≤ subjectKeywordCount then true
    else if 2 ≤ bodyKeywordCount then true
    else if 1 ≤ subjectKeywordCount + bodyKeywordCount then true
    else false

/-- `is_recruiter_email` (rules.py lines 103-115), parameterised over the
junk check (`is_junk_email`, DB-backed) and the optional ML classifier
(`_classify_with_ml` returns `None` when no model is loaded). -/
def isRecruiterEmail (isJunk : Bool) (useMl : Bool) (mlResult : Option Bool)
    (recruiterKeywords antiRecruiterKeywords : List String)
    (subject body : String) : Bool :=
  if isJunk then false
  else if useMl then
    match mlResult with
    | some b => b
    | none => classifyWithRules recruiterKeywords antiRecruiterKeywords subject body
  else classifyWithRules recruiterKeywords antiRecruiterKeywords subject body

end SrcRules

namespace VendorContacts

/-!
Embedding of the validation and local-deduplication step of
`src/src/extractor/persistence/vendor_contacts.py` (`save_contacts`, step 1).
-/

/-- The fields of a contact dict read by `_is_valid_contact`,
`_is_vendor_recruiter_contact` and the dedup key; `none` models a missing or
`None`-valued key (`contact.get(k) or ""` maps both to `""`). -/
structure Contact where
  name : Option String
  email : Option String
  linkedin_id : Option String
  source : Option String
deriving DecidableEq

/-- Python `contact.get(key) or ""`. -/
def getStr (o : Option String) : String := o.getD ""

/-- `_is_valid_contact` (vendor_contacts.py lines 351-381), as its chain of
early returns. -/
def isValidContact (c : Contact) : Bool :=
  let email := pyTrim (getStr c.email)
  let linkedin := pyTrim (getStr c.linkedin_id)
  let name := pyTrim (getStr c.name)
  if email = "" ∧ linkedin = "" then false
  else if email ≠ "" ∧ (email.data.contains '@' = false ∨ email.data.contains '.' = false) then
    false
  else if email ≠ "" ∧
      (["noreply", "no-reply", "info@", "support@", "admin@"].any
        (fun t => strContains (pyLower email) t)) = true then false
  else if linkedin ≠ "" ∧ (linkedin.data.contains ' ' = true ∨ 80 < linkedin.data.length) then
    false
  else if name ≠ "" ∧
      ((pySplitWords name).length < 2 ∨ 6 < (pySplitWords name).length) then false
  else if name ≠ "" ∧ (name.data.any Char.isDigit) = true then false
  else true

/-- `_is_vendor_recruiter_contact` (vendor_contacts.py lines 340-349),
parameterised over the filter repository's `check_email`. -/
def isVendorRecruiterContact (repoCheck : String → Option String) (c : Contact) : Bool :=
  let sourceEmail := pyLower (pyTrim (getStr c.source))
  let contactEmail := pyLower (pyTrim (getStr c.email))
  if sourceEmail ≠ "" ∧ contactEmail ≠ "" ∧ sourceEmail = contactEmail then false
  else if contactEmail ≠ "" ∧ repoCheck contactEmail = some "block" then false
  else true

/-- The run-local dedup key (vendor_contacts.py lines 134-136):
`email_key or f"li:{linkedin_key}"`, both lower-cased and stripped. -/
def dedupeKey (c : Contact) : String :=
  let emailKey := pyLower (pyTrim (getStr c.email))
  let linkedinKey := pyLower (pyTrim (getStr c.linkedin_id))
  if emailKey ≠ "" then emailKey
  else String.mk ('l' :: 'i' :: ':' :: linkedinKey.data)

/-- The validate-and-local-dedup loop of `save_contacts`
(vendor_contacts.py lines 122-143), accumulating `seen_keys`. -/
def filterContactsAux (repoCheck : String → Option String) :
    List Contact → List String → List Contact
  | [], _ => []
  | c :: cs, seen =>
    if isValidContact c = false then filterContactsAux repoCheck cs seen
    else if isVendorRecruiterContact repoCheck c = false then filterContactsAux repoCheck cs seen
    else
      let key := dedupeKey c
      if key ≠ "" ∧ seen.contains key = true then filterContactsAux repoCheck cs seen
      else if key ≠ "" then c :: filterContactsAux repoCheck cs (key :: seen)
      else c :: filterContactsAux repoCheck cs seen

/-- `filtered_contacts` as produced by step 1 of `save_contacts`. -/
def filterContacts (repoCheck : String → Option String) (contacts : List Contact) :
    List Contact :=
  filterContactsAux repoCheck contacts []

/-- Specification-level first-seen-wins deduplication by a key function
(the behaviour §4.4 of the spec describes for the run-local dedup). -/
def dedupFirstBy (key : Contact → String) : List Contact → List String → List Contact
  | [], _ => []
  | c :: cs, seen =>
    if seen.contains (key c) = true then dedupFirstBy key cs seen
    else c :: dedupFirstBy key cs (key c :: seen)

end VendorContacts

namespace FilterRepo

/-!
Embedding of `src/email-extractor/utils/filters/filter_repository.py`
(`load_filters` and `get_keyword_lists`).
-/

/-- A row of the `job-automation-keywords` API response, with the fields
`load_filters` / `get_keyword_lists` read. -/
structure FilterRow where
  category : String
  keywords : String
  match_type : String
  action : String
  priority : ℤ
  is_active : ℤ
  source : String
deriving DecidableEq

/-- `[k.strip() for k in keywords_str.split(',') if k.strip()]`
(filter_repository.py line 144). -/
def splitKeywords (s : String) : List String :=
  (((splitChar (fun c => c = ',') s.data).map (fun w => pyTrim (String.mk w)))).filter
    (fun k => k ≠ "")

/-- Ascending-priority order of `self._filters.sort(key=lambda x: x.get('priority', 999))`. -/
def rowLE (a b : FilterRow) : Prop := a.priority ≤ b.priority

instance : DecidableRel rowLE := fun a b => Int.decLe a.priority b.priority

instance : IsTotal FilterRow rowLE := ⟨fun a b => le_total a.priority b.priority⟩

instance : IsTrans FilterRow rowLE := ⟨fun _ _ _ h1 h2 => le_trans h1 h2⟩

/-- `load_filters` (filter_repository.py lines 31-45): keep active
`email_extractor` rows and stable-sort by priority (Python `list.sort`). -/
def loadFilters (allRows : List FilterRow) : List FilterRow :=
  List.insertionSort rowLE
    (allRows.filter (fun f => f.is_active = 1 ∧ f.source = "email_extractor"))

/-- `get_keyword_lists` (filter_repository.py lines 134-147): a dict built by
a fold over the filters; rows with an empty `keywords` string are skipped,
other rows overwrite their category's entry. Represented as the lookup
function of the resulting dict. -/
def getKeywordLists (fs : List FilterRow) : String → Option (List String) :=
  fs.foldl
    (fun acc f =>
      if f.keywords ≠ "" then
        (fun cat => if cat = f.category then some (splitKeywords f.keywords) else acc cat)
      else acc)
    (fun _ => none)

/-- Specification-side helper: the last row of the list whose category is
`cat` and whose `keywords` string is nonempty. -/
def lastMatch? (cat : String) : List FilterRow → Option FilterRow
  | [] => none
  | f :: fs =>
    match lastMatch? cat fs with
    | some g => some g
    | none => if f.category = cat ∧ f.keywords ≠ "" then some f else none

end FilterRepo

/-! ### Concrete instances used by the scenario parts of the claims -/

/-- A `client`-kind candidate at confidence 0.85 (scenario of claim C1). -/
def clientCand : NerUtil.CompanyCandidate := ⟨"ClientCo", "span", 85, "client"⟩

/-- A `vendor`-kind candidate at confidence 0.75 (scenario of claim C1). -/
def vendorCand75 : NerUtil.CompanyCandidate := ⟨"VendorCo", "domain", 75, "vendor"⟩

/-- A `vendor`-kind candidate at confidence 0.60 (scenario of claim C1). -/
def vendorCand60 : NerUtil.CompanyCandidate := ⟨"VendorCo", "domain", 60, "vendor"⟩

/-- An abstract regex matcher that matches nothing (no regex rules in play). -/
def noRegex : String → String → Bool := fun _ _ => false

/-- A filter-repository stub that matches no filter (`check_email` → `None`). -/
def repoNone : String → Option String := fun _ => none

/-- Two sender rules sharing one priority but with opposite actions. -/
def ruleAllowTie : BotFilters.Rule := ⟨"allowed_domain", "contains", "allow", 5, ["b.c"]⟩

/-- See `ruleAllowTie`. -/
def ruleBlockTie : BotFilters.Rule := ⟨"blocked_domain", "contains", "block", 5, ["b.c"]⟩

/-- A blocking rule for the `linkedin.com` domain (spec scenario). -/
def ruleLinkedin : BotFilters.Rule := ⟨"blocked_domain", "contains", "block", 1, ["linkedin.com"]⟩

/-- Demo recruiter keywords for claim C7. -/
def rkDemo : List String := ["recruiter", "position"]

/-- Demo anti-recruiter keywords for claim C7. -/
def akDemo : List String := ["unsubscribe", "marketing", "newsletter", "webinar"]

/-- Demo subject containing two recruiter keywords (claim C7 scenario). -/
def demoSubject : String := "Recruiter Position Open"

/-- Demo body containing four anti-recruiter keywords (claim C7 scenario). -/
def demoBody : String := "unsubscribe marketing newsletter webinar"

/-- Keyword lists with `greenhouse.io` in the ATS-platform list (claim C8). -/
def kwGreenhouse : NerUtil.KeywordLists := ⟨["greenhouse.io"], [], []⟩

/-- Empty keyword lists. -/
def kwEmpty : NerUtil.KeywordLists := ⟨[], [], []⟩

/-- A `tldextract` stub returning the registrable root label `greenhouse`. -/
def tldGreenhouse : String → String := fun _ => "greenhouse"

/-- External extractors producing only a span candidate `Acme Corp`. -/
def nlpSpanOnly : NerUtil.ExternalNLP :=
  ⟨fun _ => some "Acme Corp", fun _ => none, fun _ => none, fun _ => "", fun _ => none⟩

/-- The HTML fragment of the spec's span scenario. -/
def demoHtml : String := "<span>Jane Doe - Acme Corp</span>"

/-- The span candidate of `demoHtml` after scoring (source prior 0.95, no
penalties). -/
def spanScoredDemo : NerUtil.CompanyCandidate := ⟨"Acme Corp", "span", 95, "vendor"⟩

/-- A contact whose `name` field is present but empty: it has an email, so it
passes `_is_valid_contact` although its name has zero (< 2) words. -/
def emptyNameContact : VendorContacts.Contact := ⟨some "", some "ab@cd.ef", none, none⟩

/-- A contact with a name of two words and an email (demo for claim C9). -/
def vcDemo1 : VendorContacts.Contact :=
  ⟨some "Jane Doe", some "jane@acme.com", none, some "candidate@gmail.com"⟩

/-- A second contact with the same email in different case: a run-local
duplicate of `vcDemo1` (demo for claim C9). -/
def vcDemo2 : VendorContacts.Contact :=
  ⟨some "Jane A Doe", some "JANE@acme.com", none, some "candidate@gmail.com"⟩

/-- An active filter row of category `catX` with two keywords, priority 1. -/
def rowA : FilterRepo.FilterRow := ⟨"catX", "alpha,beta", "contains", "block", 1, 1, "email_extractor"⟩

/-- An active filter row of category `catX` with an empty keywords string,
priority 2 (so it is the last `catX` row in priority-sorted order). -/
def rowB : FilterRepo.FilterRow := ⟨"catX", "", "contains", "block", 2, 1, "email_extractor"⟩

/-! ### Helper lemmas -/

namespace NerUtil

theorem sortDesc_perm (l : List CompanyCandidate) : List.Perm (sortDesc l) l :=
  List.perm_insertionSort candGE l

theorem sortDesc_sorted (l : List CompanyCandidate) : List.Sorted candGE (sortDesc l) :=
  List.sorted_insertionSort candGE l

theorem vendorOverride_mem (best : CompanyCandidate) (l : List CompanyCandidate) :
    vendorOverride best l = best ∨ vendorOverride best l ∈ l := by
  induction l with
  | nil => exact Or.inl rfl
  | cons c cs ih =>
    by_cases h : c.type = "vendor" ∧ best.type = "client" ∧ best.confidence - 15 ≤ c.confidence
    · rw [vendorOverride, if_pos h]
      exact Or.inr (List.mem_cons_self c cs)
    · rw [vendorOverride, if_neg h]
      rcases ih with h1 | h1
      · exact Or.inl h1
      · exact Or.inr (List.mem_cons_of_mem c h1)

theorem vendorOverride_promote (best : CompanyCandidate) (rest : List CompanyCandidate)
    (hb : best.type = "client") (hs : List.Pairwise candGE rest)
    (hex : ∃ v ∈ rest, v.type = "vendor" ∧ best.confidence - 15 ≤ v.confidence) :
    ∃ v ∈ rest, v.type = "vendor" ∧ best.confidence - 15 ≤ v.confidence ∧
      vendorOverride best rest = v ∧
      ∀ u ∈ rest, u.type = "vendor" → u.confidence ≤ v.confidence := by
  induction rest with
  | nil => simp at hex
  | cons c cs ih =>
    rw [List.pairwise_cons] at hs
    by_cases hv : c.type = "vendor"
    · have hwithin : best.confidence - 15 ≤ c.confidence := by
        obtain ⟨v, hvmem, _, hvw⟩ := hex
        rcases List.mem_cons.mp hvmem with rfl | hmem
        · exact hvw
        · exact le_trans hvw (hs.1 v hmem)
      refine ⟨c, List.mem_cons_self c cs, hv, hwithin, ?_, ?_⟩
      · rw [vendorOverride, if_pos ⟨hv, hb, hwithin⟩]
      · intro u hu _
        rcases List.mem_cons.mp hu with rfl | hu
        · exact le_refl _
        · exact hs.1 u hu
    · have hcond : ¬(c.type = "vendor" ∧ best.type = "client" ∧
          best.confidence - 15 ≤ c.confidence) := fun h => hv h.1
      have hex' : ∃ v ∈ cs, v.type = "vendor" ∧ best.confidence - 15 ≤ v.confidence := by
        obtain ⟨v, hvmem, hvt, hvw⟩ := hex
        rcases List.mem_cons.mp hvmem with rfl | hmem
        · exact absurd hvt hv
        · exact ⟨v, hmem, hvt, hvw⟩
      obtain ⟨v, hm, ht, hw, heq, hmax⟩ := ih hs.2 hex'
      refine ⟨v, List.mem_cons_of_mem c hm, ht, hw, ?_, ?_⟩
      · rw [vendorOverride, if_neg hcond]
        exact heq
      · intro u hu hut
        rcases List.mem_cons.mp hu with rfl | hu
        · exact absurd hut hv
        · exact hmax u hu hut

theorem calculateCompanyScore_bounds (kw : KeywordLists) (c : CompanyCandidate)
    (context : String) :
    0 ≤ (calculateCompanyScore kw c context).1 ∧ (calculateCompanyScore kw c context).1 ≤ 100 := by
  simp only [calculateCompanyScore]
  exact ⟨le_max_left 0 _, max_le (by norm_num) (min_le_left 100 _)⟩

theorem spanCandidate_shape (kw : KeywordLists) (nlp : ExternalNLP) (html : Option String)
    (c : CompanyCandidate) (h : spanCandidate kw nlp html = some c) :
    ∃ name context, c = scoreCandidate kw ⟨name, "span", 0, "vendor"⟩ context := by
  unfold spanCandidate at h
  repeat' split at h
  all_goals first
    | (exact ⟨_, _, (Option.some.inj h).symm⟩)
    | (cases h)

theorem domainCandidate_shape (kw : KeywordLists) (suffixes : List (String × String))
    (nlp : ExternalNLP) (text : String) (email : Option String)
    (c : CompanyCandidate) (h : domainCandidate kw suffixes nlp text email = some c) :
    ∃ name ty context, c = scoreCandidate kw ⟨name, "domain", 0, ty⟩ context := by
  unfold domainCandidate at h
  repeat' split at h
  all_goals first
    | (exact ⟨_, _, _, (Option.some.inj h).symm⟩)
    | (cases h)

theorem sigCandidate_shape (kw : KeywordLists) (nlp : ExternalNLP) (text : String)
    (c : CompanyCandidate) (h : sigCandidate kw nlp text = some c) :
    ∃ name context, c = scoreCandidate kw ⟨name, "signature", 0, "unknown"⟩ context := by
  unfold sigCandidate at h
  repeat' split at h
  all_goals first
    | (exact ⟨_, _, (Option.some.inj h).symm⟩)
    | (cases h)

theorem nerCandidate_shape (kw : KeywordLists) (nlp : ExternalNLP) (text : String)
    (c : CompanyCandidate) (h : nerCandidate kw nlp text = some c) :
    ∃ name context, c = scoreCandidate kw ⟨name, "ner", 0, "unknown"⟩ context := by
  unfold nerCandidate at h
  repeat' split at h
  all_goals first
    | (exact ⟨_, _, (Option.some.inj h).symm⟩)
    | (cases h)

theorem buildCandidates_shape (kw : KeywordLists) (suffixes : List (String × String))
    (nlp : ExternalNLP) (text : String) (email html : Option String) :
    ∀ c ∈ buildCandidates kw suffixes nlp text email html,
      ∃ c₀ context, c₀.confidence = 0 ∧ c = scoreCandidate kw c₀ context := by
  intro c hc
  simp only [buildCandidates] at hc
  rcases List.mem_append.mp hc with h123 | h
  · rcases List.mem_append.mp h123 with h12 | h
    · rcases List.mem_append.mp h12 with h | h
      · obtain ⟨name, context, rfl⟩ :=
          spanCandidate_shape kw nlp html c (Option.mem_def.mp (Option.mem_toList.mp h))
        exact ⟨_, context, rfl, rfl⟩
      · obtain ⟨name, ty, context, rfl⟩ :=
          domainCandidate_shape kw suffixes nlp text email c
            (Option.mem_def.mp (Option.mem_toList.mp h))
        exact ⟨_, context, rfl, rfl⟩
    · obtain ⟨name, context, rfl⟩ :=
        sigCandidate_shape kw nlp text c (Option.mem_def.mp (Option.mem_toList.mp h))
      exact ⟨_, context, rfl, rfl⟩
  · obtain ⟨name, context, rfl⟩ :=
      nerCandidate_shape kw nlp text c (Option.mem_def.mp (Option.mem_toList.mp h))
    exact ⟨_, context, rfl, rfl⟩

end NerUtil

/-! ### Claims C1-C3 -/

/-- C1: vendor-over-client override. If, after threshold filtering and
descending-confidence sorting, the top candidate is `client`-kind and some
lower-ranked candidate is `vendor`-kind within 0.15 (15 hundredths) of the
top confidence, `resolve` returns that vendor candidate (the highest-ranked
such vendor); concretely, with a client at 0.85 and a vendor at 0.75 the
vendor wins, while at 0.60 the client wins. -/
theorem c1_vendor_over_client_override :
    (∀ (cs : List NerUtil.CompanyCandidate) (best : NerUtil.CompanyCandidate)
        (rest : List NerUtil.CompanyCandidate),
      NerUtil.sortDesc (cs.filter (fun c => NerUtil.MIN_COMPANY_SCORE ≤ c.confidence))
          = best :: rest →
      best.type = "client" →
      (∃ v ∈ rest, v.type = "vendor" ∧ best.confidence - 15 ≤ v.confidence) →
      ∃ v ∈ rest, v.type = "vendor" ∧ best.confidence - 15 ≤ v.confidence ∧
        NerUtil.resolveCandidate cs = some v ∧
        ∀ u ∈ rest, u.type = "vendor" → u.confidence ≤ v.confidence)
    ∧ NerUtil.resolveCandidate [clientCand, vendorCand75] = some vendorCand75
    ∧ NerUtil.resolveCandidate [clientCand, vendorCand60] = some clientCand := by
  refine ⟨?_, by decide, by decide⟩
  intro cs best rest hsort hb hex
  have hsorted : List.Sorted NerUtil.candGE (best :: rest) := hsort ▸ NerUtil.sortDesc_sorted _
  rw [List.sorted_cons] at hsorted
  obtain ⟨v, hm, ht, hw, heq, hmax⟩ := NerUtil.vendorOverride_promote best rest hb hsorted.2 hex
  refine ⟨v, hm, ht, hw, ?_, hmax⟩
  unfold NerUtil.resolveCandidate
  rw [hsort]
  show some (NerUtil.vendorOverride best rest) = some v
  rw [heq]

/-- Witness for C1: the universal part applied at the concrete two-candidate
scenario (client 0.85, vendor 0.75). -/
theorem c1_vendor_over_client_override_witness :
    ∃ v ∈ [vendorCand75], v.type = "vendor" ∧ clientCand.confidence - 15 ≤ v.confidence ∧
      NerUtil.resolveCandidate [clientCand, vendorCand75] = some v ∧
      ∀ u ∈ [vendorCand75], u.type = "vendor" → u.confidence ≤ v.confidence :=
  c1_vendor_over_client_override.1 [clientCand, vendorCand75] clientCand [vendorCand75]
    (by decide) (by decide) ⟨vendorCand75, by decide, by decide, by decide⟩

/-- C2: candidate scoring model. The computed score is the source prior
(span 0.95, domain 0.90, signature 0.80, body_intro 0.65, ner 0.50 — in
hundredths) plus the additive, combinable penalties: −0.40 when the candidate
is ATS-kind, −0.50 when client language is detected in the value or the
context (the kind then becomes `client`), −0.30 when a generic term occurs in
the value, −0.20 when the value is shorter than 3 characters (clamped). -/
theorem c2_candidate_scoring_model (kw : NerUtil.KeywordLists)
    (c : NerUtil.CompanyCandidate) (context : String) :
    NerUtil.calculateCompanyScore kw c context =
      (max 0 (min 100 (NerUtil.sourceScore c.source
          + (if c.type = "ats" then NerUtil.atsDomainPenalty else 0)
          + (if NerUtil.clientDetected kw c context then NerUtil.containsClientPenalty else 0)
          + (if NerUtil.genericDetected kw c then NerUtil.genericTermPenalty else 0)
          + (if c.name.data.length < 3 then NerUtil.tooShortPenalty else 0))),
        if NerUtil.clientDetected kw c context then "client" else c.type)
    ∧ NerUtil.sourceScore "span" = 95 ∧ NerUtil.sourceScore "domain" = 90
    ∧ NerUtil.sourceScore "signature" = 80 ∧ NerUtil.sourceScore "body_intro" = 65
    ∧ NerUtil.sourceScore "ner" = 50
    ∧ NerUtil.atsDomainPenalty = -40 ∧ NerUtil.containsClientPenalty = -50
    ∧ NerUtil.genericTermPenalty = -30 ∧ NerUtil.tooShortPenalty = -20 := by
  refine ⟨?_, by decide, by decide, by decide, by decide, by decide, by decide, by decide,
    by decide, by decide⟩
  simp only [NerUtil.calculateCompanyScore]
  split_ifs <;> simp_all

/-- C3: resolve threshold and empty input. `resolve` of the empty sequence is
`null`; every returned candidate has confidence ≥ 0.70 (the threshold
`MIN_COMPANY_SCORE`); when no candidate reaches the threshold the result is
`null`. -/
theorem c3_resolve_threshold_and_empty :
    NerUtil.MIN_COMPANY_SCORE = 70
    ∧ NerUtil.resolveCandidate [] = none
    ∧ (∀ (cs : List NerUtil.CompanyCandidate) (c : NerUtil.CompanyCandidate),
        NerUtil.resolveCandidate cs = some c → NerUtil.MIN_COMPANY_SCORE ≤ c.confidence)
    ∧ (∀ cs : List NerUtil.CompanyCandidate,
        (∀ c ∈ cs, c.confidence < NerUtil.MIN_COMPANY_SCORE) →
          NerUtil.resolveCandidate cs = none) := by
  refine ⟨rfl, rfl, ?_, ?_⟩
  · intro cs c h
    unfold NerUtil.resolveCandidate at h
    cases hs : NerUtil.sortDesc
        (cs.filter (fun c => NerUtil.MIN_COMPANY_SCORE ≤ c.confidence)) with
    | nil => rw [hs] at h; cases h
    | cons b r =>
      rw [hs] at h
      have hc : NerUtil.vendorOverride b r = c := Option.some.inj h
      have hmem : c ∈ b :: r := by
        rcases NerUtil.vendorOverride_mem b r with h1 | h1
        · rw [hc] at h1; rw [h1]; exact List.mem_cons_self b r
        · rw [hc] at h1; exact List.mem_cons_of_mem b h1
      have hmem2 : c ∈ cs.filter (fun c => NerUtil.MIN_COMPANY_SCORE ≤ c.confidence) :=
        (NerUtil.sortDesc_perm _).mem_iff.mp (hs ▸ hmem)
      exact of_decide_eq_true (List.mem_filter.mp hmem2).2
  · intro cs hall
    have hfil : cs.filter (fun c => NerUtil.MIN_COMPANY_SCORE ≤ c.confidence) = [] := by
      rw [List.filter_eq_nil_iff]
      intro c hc
      simpa using not_le.mpr (hall c hc)
    unfold NerUtil.resolveCandidate
    rw [hfil]
    rfl

/-- Witness for C3: a candidate at confidence 0.75 is returned and satisfies
the threshold; a list whose only candidate is at 0.60 resolves to `null`. -/
theorem c3_resolve_threshold_and_empty_witness :
    NerUtil.MIN_COMPANY_SCORE ≤ vendorCand75.confidence
    ∧ NerUtil.resolveCandidate [vendorCand60] = none :=
  ⟨c3_resolve_threshold_and_empty.2.2.1 [vendorCand75] vendorCand75 (by decide),
   c3_resolve_threshold_and_empty.2.2.2 [vendorCand60] (by decide)⟩

/-- C4: confidence invariant. Every candidate handed to selection by
`extract_company_with_scoring` was constructed with confidence 0.0 and had
its confidence recomputed by the scoring function from its value, source,
kind and context; the recomputed confidence lies in [0, 1] (i.e. [0, 100]
hundredths, by the clamp). -/
theorem c4_confidence_invariant (kw : NerUtil.KeywordLists)
    (suffixes : List (String × String)) (nlp : NerUtil.ExternalNLP)
    (text : String) (email html : Option String) :
    ∀ c ∈ NerUtil.buildCandidates kw suffixes nlp text email html,
      (0 ≤ c.confidence ∧ c.confidence ≤ 100)
      ∧ ∃ (c₀ : NerUtil.CompanyCandidate) (context : String),
          c₀.confidence = 0 ∧ c₀.name = c.name ∧ c₀.source = c.source
          ∧ NerUtil.scoreCandidate kw c₀ context = c := by
  intro c hc
  obtain ⟨c₀, context, hc0, rfl⟩ := NerUtil.buildCandidates_shape kw suffixes nlp text email html c hc
  exact ⟨NerUtil.calculateCompanyScore_bounds kw c₀ context, c₀, context, hc0, rfl, rfl, rfl⟩

/-- Witness for C4: the invariant at the concrete span candidate produced
from the spec's `<span>Jane Doe - Acme Corp</span>` scenario. -/
theorem c4_confidence_invariant_witness :
    (0 ≤ spanScoredDemo.confidence ∧ spanScoredDemo.confidence ≤ 100)
    ∧ ∃ (c₀ : NerUtil.CompanyCandidate) (context : String),
        c₀.confidence = 0 ∧ c₀.name = spanScoredDemo.name ∧ c₀.source = spanScoredDemo.source
        ∧ NerUtil.scoreCandidate kwEmpty c₀ context = spanScoredDemo :=
  c4_confidence_invariant kwEmpty [] nlpSpanOnly "" none (some demoHtml) spanScoredDemo (by decide)

/-- C5: idempotence/determinism of resolve. The extractor's cross-call state
(the keyword tables loaded at construction) is never written by
`extract_company_with_scoring`; running the extraction twice on the same
inputs from the same state yields the identical result and state. -/
theorem c5_resolve_idempotent_deterministic (s : NerUtil.ExtractorState)
    (nlp : NerUtil.ExternalNLP) (text : String) (email html : Option String) :
    (NerUtil.extractCompanyWithScoringRun s nlp text email html).2 = s
    ∧ NerUtil.extractCompanyWithScoringRun
        (NerUtil.extractCompanyWithScoringRun s nlp text email html).2 nlp text email html
      = NerUtil.extractCompanyWithScoringRun s nlp text email html :=
  ⟨rfl, rfl⟩

namespace BotFilters

theorem sortRules_perm (l : List Rule) : List.Perm (sortRules l) l :=
  List.perm_insertionSort ruleLE l

theorem sortRules_sorted (l : List Rule) : List.Pairwise ruleLE (sortRules l) :=
  List.sorted_insertionSort ruleLE l

theorem find_min (pred : Rule → Bool) :
    ∀ (l : List Rule), l.Pairwise ruleLE → ∀ r, l.find? pred = some r →
      ∀ x ∈ l, pred x = true → r.priority ≤ x.priority := by
  intro l
  induction l with
  | nil => intro _ r h; cases h
  | cons a t ih =>
    intro hp r hfind x hx hpx
    rw [List.pairwise_cons] at hp
    by_cases ha : pred a = true
    · rw [List.find?_cons_of_pos _ ha] at hfind
      obtain rfl : a = r := Option.some.inj hfind
      rcases List.mem_cons.mp hx with rfl | hx
      · exact le_refl _
      · exact hp.1 x hx
    · rw [List.find?_cons_of_neg _ (by simpa using ha)] at hfind
      rcases List.mem_cons.mp hx with rfl | hx
      · exact absurd hpx ha
      · exact ih hp.2 r hfind x hx hpx

end BotFilters

/-- C6 counterexample: two rules with the same priority and opposite actions
that both match the sender; the result of `check_sender` over the
priority-sorted rules depends on the rule list's order prior to sorting, so
the claim's order-independence fails at ties. -/
theorem c6_sender_classification_counterexample :
    ruleAllowTie.priority = ruleBlockTie.priority
    ∧ BotFilters.checkSender noRegex (BotFilters.sortRules [ruleAllowTie, ruleBlockTie])
        "someone@b.c" = "allow"
    ∧ BotFilters.checkSender noRegex (BotFilters.sortRules [ruleBlockTie, ruleAllowTie])
        "someone@b.c" = "block" := by
  refine ⟨by decide, by decide, by decide⟩

/-- C6 (amended): for every rule set and header, `check_sender` over the
priority-sorted rules blocks when no email address can be extracted; when no
rule matches, it blocks exactly when some local-part token (split on `._-+`)
looks like a random identifier, else allows; when some rule matches, it
returns the action of a matching rule of minimal priority among all matching
rules (order-independent only when those minimal-priority matches agree on
the action, e.g. when matching priorities are distinct). -/
theorem c6_sender_classification_amended (rmatch : String → String → Bool)
    (rules : List BotFilters.Rule) (parsedAddr : String) :
    (BotFilters.extractEmail parsedAddr = none →
      BotFilters.checkSender rmatch (BotFilters.sortRules rules) parsedAddr = "block")
    ∧ (∀ email, BotFilters.extractEmail parsedAddr = some email →
        ((∀ r ∈ rules, BotFilters.ruleMatches rmatch email (BotFilters.splitLocalDomain email).1
            (BotFilters.splitLocalDomain email).2 r = false) →
          BotFilters.checkSender rmatch (BotFilters.sortRules rules) parsedAddr =
            (if (BotFilters.fallbackTokens email).any BotFilters.looksLikeRandomToken then "block"
             else "allow"))
        ∧ (∀ r0 ∈ rules, BotFilters.ruleMatches rmatch email (BotFilters.splitLocalDomain email).1
              (BotFilters.splitLocalDomain email).2 r0 = true →
            ∃ r ∈ rules, BotFilters.ruleMatches rmatch email (BotFilters.splitLocalDomain email).1
                (BotFilters.splitLocalDomain email).2 r = true
              ∧ BotFilters.checkSender rmatch (BotFilters.sortRules rules) parsedAddr = r.action
              ∧ ∀ r2 ∈ rules, BotFilters.ruleMatches rmatch email
                  (BotFilters.splitLocalDomain email).1 (BotFilters.splitLocalDomain email).2 r2
                    = true → r.priority ≤ r2.priority)) := by
  have hred : ∀ email, BotFilters.extractEmail parsedAddr = some email →
      BotFilters.checkSender rmatch (BotFilters.sortRules rules) parsedAddr =
        (match (BotFilters.sortRules rules).find? (fun r =>
            BotFilters.ruleMatches rmatch email (BotFilters.splitLocalDomain email).1
              (BotFilters.splitLocalDomain email).2 r) with
         | some r => r.action
         | none => if (BotFilters.fallbackTokens email).any BotFilters.looksLikeRandomToken
             then "block" else "allow") := by
    intro email hsome
    unfold BotFilters.checkSender
    rw [hsome]
  constructor
  · intro hnone
    unfold BotFilters.checkSender
    rw [hnone]
  · intro email hsome
    constructor
    · intro hnomatch
      have hfind : (BotFilters.sortRules rules).find? (fun r =>
          BotFilters.ruleMatches rmatch email (BotFilters.splitLocalDomain email).1
            (BotFilters.splitLocalDomain email).2 r) = none := by
        rw [List.find?_eq_none]
        intro r hr
        have : r ∈ rules := (BotFilters.sortRules_perm rules).mem_iff.mp hr
        simp [hnomatch r this]
      rw [hred email hsome, hfind]
    · intro r0 hr0 hm0
      have hne : (BotFilters.sortRules rules).find? (fun r =>
          BotFilters.ruleMatches rmatch email (BotFilters.splitLocalDomain email).1
            (BotFilters.splitLocalDomain email).2 r) ≠ none := by
        intro hn
        rw [List.find?_eq_none] at hn
        exact hn r0 ((BotFilters.sortRules_perm rules).mem_iff.mpr hr0) (by simpa using hm0)
      cases hfind : (BotFilters.sortRules rules).find? (fun r =>
          BotFilters.ruleMatches rmatch email (BotFilters.splitLocalDomain email).1
            (BotFilters.splitLocalDomain email).2 r) with
      | none => exact absurd hfind hne
      | some r =>
        refine ⟨r, (BotFilters.sortRules_perm rules).mem_iff.mp
            (List.mem_of_find?_eq_some hfind), List.find?_some hfind, ?_, ?_⟩
        · rw [hred email hsome, hfind]
        · intro r2 hr2 hm2
          exact BotFilters.find_min _ (BotFilters.sortRules rules)
            (BotFilters.sortRules_sorted rules) r hfind r2
            ((BotFilters.sortRules_perm rules).mem_iff.mpr hr2) (by simp [hm2])

/-- Witness for C6 (amended): the matched case at the spec's
`noreply@linkedin.com` scenario (a single `contains linkedin.com → block`
rule), and the fallback case at a random-looking local part with no rules. -/
theorem c6_sender_classification_amended_witness :
    (∃ r ∈ [ruleLinkedin], BotFilters.ruleMatches noRegex "noreply@linkedin.com"
          (BotFilters.splitLocalDomain "noreply@linkedin.com").1
          (BotFilters.splitLocalDomain "noreply@linkedin.com").2 r = true
        ∧ BotFilters.checkSender noRegex (BotFilters.sortRules [ruleLinkedin])
            "noreply@linkedin.com" = r.action
        ∧ ∀ r2 ∈ [ruleLinkedin], BotFilters.ruleMatches noRegex "noreply@linkedin.com"
            (BotFilters.splitLocalDomain "noreply@linkedin.com").1
            (BotFilters.splitLocalDomain "noreply@linkedin.com").2 r2 = true →
              r.priority ≤ r2.priority)
    ∧ BotFilters.checkSender noRegex (BotFilters.sortRules []) "a1b2c3d4e5f@x.y"
        = (if (BotFilters.fallbackTokens "a1b2c3d4e5f@x.y").any BotFilters.looksLikeRandomToken
           then "block" else "allow") :=
  ⟨((c6_sender_classification_amended noRegex [ruleLinkedin] "noreply@linkedin.com").2
      "noreply@linkedin.com" (by decide)).2 ruleLinkedin (by decide) (by decide),
   ((c6_sender_classification_amended noRegex [] "a1b2c3d4e5f@x.y").2
      "a1b2c3d4e5f@x.y" (by decide)).1 (by decide)⟩

/-- C7: recruiter classification (keyword-count variant). With a non-junk
sender and the trained classifier not in use: ≥ 4 anti-recruiter keyword hits
over the combined subject+body text force `is_recruiter_email = False`
regardless of recruiter-keyword counts; otherwise the message is classified
recruiter iff subject hits ≥ 1, or body hits ≥ 2, or combined hits ≥ 1. -/
theorem c7_recruiter_keyword_count (recruiterKws antiKws : List String)
    (subject body : String) (mlResult : Option Bool) :
    (4 ≤ SrcRules.countHits antiKws (SrcRules.combinedText subject body) →
      SrcRules.isRecruiterEmail false false mlResult recruiterKws antiKws subject body = false)
    ∧ (SrcRules.countHits antiKws (SrcRules.combinedText subject body) < 4 →
        (SrcRules.isRecruiterEmail false false mlResult recruiterKws antiKws subject body = true ↔
          (1 ≤ SrcRules.countHits recruiterKws (pyLower subject)
            ∨ 2 ≤ SrcRules.countHits recruiterKws (pyLower body)
            ∨ 1 ≤ SrcRules.countHits recruiterKws (pyLower subject)
                + SrcRules.countHits recruiterKws (pyLower body)))) := by
  have hred : SrcRules.isRecruiterEmail false false mlResult recruiterKws antiKws subject body
      = SrcRules.classifyWithRules recruiterKws antiKws subject body := rfl
  constructor
  · intro h4
    rw [hred]
    unfold SrcRules.classifyWithRules
    simp only [if_pos h4]
  · intro h4
    rw [hred]
    unfold SrcRules.classifyWithRules
    rw [if_neg (not_le.mpr h4)]
    dsimp only
    split_ifs with h1 h2 h3 <;> simp_all

/-- Witness for C7: four anti-recruiter hits veto a subject that itself
contains two recruiter keywords. -/
theorem c7_recruiter_keyword_count_witness :
    SrcRules.countHits rkDemo (pyLower demoSubject) = 2
    ∧ SrcRules.isRecruiterEmail false false none rkDemo akDemo demoSubject demoBody = false :=
  ⟨by decide,
   (c7_recruiter_keyword_count rkDemo akDemo demoSubject demoBody none).1 (by decide)⟩

/-- C8: ATS-domain rejection. For every email whose full domain (the part
after the first `@`) contains an entry of the configured ATS-platform list,
`extract_company_from_domain` yields no candidate, whatever the registrable
root label would have parsed to. -/
theorem c8_ats_domain_rejection (kw : NerUtil.KeywordLists)
    (suffixes : List (String × String)) (repoCheck : String → Option String)
    (tldRoot : String → String) (email pre fullDomain : String) (restParts : List String)
    (hsplit : pySplitAll '@' email = pre :: fullDomain :: restParts)
    (hat : email.data.contains '@' = true)
    (hfd : fullDomain ≠ "")
    (hats : ∃ a ∈ kw.atsDomains, strContains (pyLower fullDomain) a = true) :
    NerUtil.extractCompanyFromDomain kw suffixes repoCheck tldRoot email = none := by
  have hatstrue : NerUtil.isAtsDomain kw.atsDomains fullDomain = true := by
    obtain ⟨a, ha, hsub⟩ := hats
    unfold NerUtil.isAtsDomain
    rw [if_neg]
    · exact List.any_eq_true.mpr ⟨a, ha, hsub⟩
    · rintro (h | h)
      · exact hfd h
      · rw [h] at ha; cases ha
  unfold NerUtil.extractCompanyFromDomain
  rw [if_neg, hsplit]
  · dsimp only
    split_ifs with h1 h2 <;> rfl
  · rintro (h | h)
    · rw [h] at hat; cases hat
    · exact h hat

/-- Witness for C8: domain `jobs.greenhouse.io` with `greenhouse.io` in the
ATS list is rejected, although with an empty ATS list the same email would
have produced the company name `Greenhouse` from the root label. -/
theorem c8_ats_domain_rejection_witness :
    NerUtil.extractCompanyFromDomain kwGreenhouse [] repoNone tldGreenhouse
      "recruiter@jobs.greenhouse.io" = none
    ∧ NerUtil.extractCompanyFromDomain kwEmpty [] repoNone tldGreenhouse
      "recruiter@jobs.greenhouse.io" = some "Greenhouse" :=
  ⟨c8_ats_domain_rejection kwGreenhouse [] repoNone tldGreenhouse
      "recruiter@jobs.greenhouse.io" "recruiter" "jobs.greenhouse.io" [] (by decide) (by decide)
      (by decide) ⟨"greenhouse.io", by decide, by decide⟩,
   by decide⟩

namespace VendorContacts

theorem dedupeKey_ne_empty (c : Contact) : dedupeKey c ≠ "" := by
  unfold dedupeKey
  dsimp only
  split_ifs with h
  · exact h
  · intro heq
    have := congrArg String.data heq
    simp at this

theorem filterContactsAux_eq (repoCheck : String → Option String) :
    ∀ (cs : List Contact) (seen : List String),
      filterContactsAux repoCheck cs seen
        = dedupFirstBy dedupeKey
            (cs.filter (fun c => isValidContact c && isVendorRecruiterContact repoCheck c)) seen := by
  intro cs
  induction cs with
  | nil => intro seen; rfl
  | cons c cs ih =>
    intro seen
    by_cases hv : isValidContact c = true
    · by_cases hr : isVendorRecruiterContact repoCheck c = true
      · have hfil : (c :: cs).filter
            (fun c => isValidContact c && isVendorRecruiterContact repoCheck c)
            = c :: cs.filter (fun c => isValidContact c && isVendorRecruiterContact repoCheck c) := by
          rw [List.filter_cons_of_pos]
          simp [hv, hr]
        rw [hfil]
        unfold filterContactsAux
        rw [if_neg (by simp [hv]), if_neg (by simp [hr])]
        dsimp only
        by_cases hseen : seen.contains (dedupeKey c) = true
        · rw [if_pos ⟨dedupeKey_ne_empty c, hseen⟩]
          unfold dedupFirstBy
          rw [if_pos hseen]
          exact ih seen
        · rw [if_neg (fun hand => hseen hand.2), if_pos (dedupeKey_ne_empty c)]
          unfold dedupFirstBy
          rw [if_neg hseen]
          rw [ih (dedupeKey c :: seen)]
      · have hfil : (c :: cs).filter
            (fun c => isValidContact c && isVendorRecruiterContact repoCheck c)
            = cs.filter (fun c => isValidContact c && isVendorRecruiterContact repoCheck c) := by
          rw [List.filter_cons_of_neg]
          simp [hr]
        rw [hfil]
        unfold filterContactsAux
        rw [if_neg (by simp [hv]), if_pos (by simpa using hr)]
        exact ih seen
    · have hfil : (c :: cs).filter
          (fun c => isValidContact c && isVendorRecruiterContact repoCheck c)
          = cs.filter (fun c => isValidContact c && isVendorRecruiterContact repoCheck c) := by
        rw [List.filter_cons_of_neg]
        simp [hv]
      rw [hfil]
      unfold filterContactsAux
      rw [if_pos (by simpa using hv)]
      exact ih seen

theorem dedupFirstBy_sublist (key : Contact → String) :
    ∀ (l : List Contact) (seen : List String), List.Sublist (dedupFirstBy key l seen) l := by
  intro l
  induction l with
  | nil => intro seen; exact List.Sublist.refl []
  | cons c cs ih =>
    intro seen
    unfold dedupFirstBy
    split_ifs with h
    · exact List.Sublist.cons c (ih seen)
    · exact List.Sublist.cons₂ c (ih (key c :: seen))

theorem dedupFirstBy_nodup (key : Contact → String) :
    ∀ (l : List Contact) (seen : List String),
      ((dedupFirstBy key l seen).map key).Nodup
      ∧ ∀ k ∈ (dedupFirstBy key l seen).map key, seen.contains k = false := by
  intro l
  induction l with
  | nil => intro seen; exact ⟨List.nodup_nil, by simp [dedupFirstBy]⟩
  | cons c cs ih =>
    intro seen
    unfold dedupFirstBy
    split_ifs with h
    · exact ih seen
    · obtain ⟨ihn, ihs⟩ := ih (key c :: seen)
      constructor
      · rw [List.map_cons, List.nodup_cons]
        refine ⟨?_, ihn⟩
        intro hmem
        have := ihs (key c) hmem
        simp at this
      · intro k hk
        rw [List.map_cons] at hk
        rcases List.mem_cons.mp hk with rfl | hk2
        · simpa using h
        · have := ihs k hk2
          simp only [List.contains_cons, Bool.or_eq_false_iff] at this
          exact this.2

theorem isValid_email_or_linkedin (c : Contact) (hv : isValidContact c = true) :
    ¬(pyTrim (getStr c.email) = "" ∧ pyTrim (getStr c.linkedin_id) = "") := by
  intro hboth
  simp only [isValidContact] at hv
  rw [if_pos hboth] at hv
  cases hv

theorem isValid_name_facts (c : Contact) (hv : isValidContact c = true)
    (hname : pyTrim (getStr c.name) ≠ "") :
    2 ≤ (pySplitWords (pyTrim (getStr c.name))).length
    ∧ (pySplitWords (pyTrim (getStr c.name))).length ≤ 6
    ∧ (pyTrim (getStr c.name)).data.any Char.isDigit = false := by
  simp only [isValidContact] at hv
  split_ifs at hv with h1 h2 h3 h4 h5 h6
  push_neg at h5 h6
  obtain ⟨hw1, hw2⟩ := h5 hname
  exact ⟨hw1, hw2, by simpa using h6 hname⟩

end VendorContacts

/-- C9 counterexample: a record whose `name` field is present but empty (zero
words, hence fewer than 2) is NOT discarded by the validity gate, because the
word-count and digit checks only run when the stripped name is nonempty; the
claim's name-rejection clause fails as universally stated. -/
theorem c9_assembler_gate_counterexample :
    (pySplitWords (pyTrim (VendorContacts.getStr emptyNameContact.name))).length < 2
    ∧ VendorContacts.filterContacts repoNone [emptyNameContact] = [emptyNameContact] := by
  refine ⟨by decide, by decide⟩

/-- C9 (amended): the step-1 output of `save_contacts` equals first-seen-wins
deduplication by the dedup key (lower-cased email, else `li:` + lower-cased
linkedin id) of the contacts passing the validity and vendor checks; every
kept record has an email or a LinkedIn id; every kept record whose stripped
name is NONEMPTY has 2-6 words and no digit (records with an empty or missing
name bypass the name checks); and the kept records' dedup keys are pairwise
distinct. -/
theorem c9_assembler_gate_amended (repoCheck : String → Option String)
    (contacts : List VendorContacts.Contact) :
    VendorContacts.filterContacts repoCheck contacts
      = VendorContacts.dedupFirstBy VendorContacts.dedupeKey
          (contacts.filter (fun c => VendorContacts.isValidContact c
            && VendorContacts.isVendorRecruiterContact repoCheck c)) []
    ∧ (∀ c ∈ VendorContacts.filterContacts repoCheck contacts,
        ¬(pyTrim (VendorContacts.getStr c.email) = ""
          ∧ pyTrim (VendorContacts.getStr c.linkedin_id) = ""))
    ∧ (∀ c ∈ VendorContacts.filterContacts repoCheck contacts,
        pyTrim (VendorContacts.getStr c.name) ≠ "" →
          (2 ≤ (pySplitWords (pyTrim (VendorContacts.getStr c.name))).length
            ∧ (pySplitWords (pyTrim (VendorContacts.getStr c.name))).length ≤ 6
            ∧ (pyTrim (VendorContacts.getStr c.name)).data.any Char.isDigit = false))
    ∧ ((VendorContacts.filterContacts repoCheck contacts).map VendorContacts.dedupeKey).Nodup := by
  have heq := VendorContacts.filterContactsAux_eq repoCheck contacts []
  have hvalid : ∀ c ∈ VendorContacts.filterContacts repoCheck contacts,
      VendorContacts.isValidContact c = true := by
    intro c hc
    rw [VendorContacts.filterContacts] at hc
    rw [heq] at hc
    have hmem := (VendorContacts.dedupFirstBy_sublist VendorContacts.dedupeKey _ []).mem hc
    exact (Bool.and_eq_true _ _).mp (List.mem_filter.mp hmem).2 |>.1
  refine ⟨heq, ?_, ?_, ?_⟩
  · intro c hc
    exact VendorContacts.isValid_email_or_linkedin c (hvalid c hc)
  · intro c hc hname
    exact VendorContacts.isValid_name_facts c (hvalid c hc) hname
  · rw [VendorContacts.filterContacts, heq]
    exact (VendorContacts.dedupFirstBy_nodup VendorContacts.dedupeKey _ []).1

/-- Witness for C9 (amended): the gate applied to a two-record run containing
a duplicate email: the second record is dropped, keys are distinct, and the
kept record has an email. -/
theorem c9_assembler_gate_amended_witness :
    VendorContacts.filterContacts repoNone [vcDemo1, vcDemo2]
      = VendorContacts.dedupFirstBy VendorContacts.dedupeKey
          (([vcDemo1, vcDemo2]).filter (fun c => VendorContacts.isValidContact c
            && VendorContacts.isVendorRecruiterContact repoNone c)) []
    ∧ ¬(pyTrim (VendorContacts.getStr vcDemo1.email) = ""
        ∧ pyTrim (VendorContacts.getStr vcDemo1.linkedin_id) = "")
    ∧ ((VendorContacts.filterContacts repoNone [vcDemo1, vcDemo2]).map
        VendorContacts.dedupeKey).Nodup :=
  ⟨(c9_assembler_gate_amended repoNone [vcDemo1, vcDemo2]).1,
   (c9_assembler_gate_amended repoNone [vcDemo1, vcDemo2]).2.1 vcDemo1 (by decide),
   (c9_assembler_gate_amended repoNone [vcDemo1, vcDemo2]).2.2.2⟩

namespace FilterRepo

theorem getKeywordLists_lookup (cat : String) :
    ∀ (fs : List FilterRow) (acc : String → Option (List String)),
      (fs.foldl
        (fun acc f =>
          if f.keywords ≠ "" then
            (fun c => if c = f.category then some (splitKeywords f.keywords) else acc c)
          else acc)
        acc) cat
      = (match lastMatch? cat fs with
         | some f => some (splitKeywords f.keywords)
         | none => acc cat) := by
  intro fs
  induction fs with
  | nil => intro acc; rfl
  | cons f fs ih =>
    intro acc
    rw [List.foldl_cons, ih]
    cases h : lastMatch? cat fs with
    | some g =>
      simp only [lastMatch?]
      rw [h]
    | none =>
      simp only [lastMatch?]
      rw [h]
      by_cases hk : f.keywords = ""
      · rw [if_neg (fun hne => hne hk), if_neg (fun hand => hand.2 hk)]
      · by_cases hc : cat = f.category
        · rw [if_pos hk]
          dsimp only
          rw [if_pos hc, if_pos ⟨hc.symm, hk⟩]
        · rw [if_pos hk]
          dsimp only
          rw [if_neg hc, if_neg (fun hand => hc hand.1.symm)]

end FilterRepo

/-- C10 counterexample: two active `catX` filters in priority-sorted order,
the later one with an empty keywords string. `get_keyword_lists` keeps the
EARLIER filter's keywords for `catX` (the empty-keywords row is skipped, not
an overwrite), so the claim that the mapping holds only the last such
filter's comma-split keywords (and the earlier filter's keywords are absent)
fails. -/
theorem c10_keyword_lists_counterexample :
    FilterRepo.loadFilters [rowA, rowB] = [rowA, rowB]
    ∧ rowA.category = rowB.category
    ∧ FilterRepo.splitKeywords rowB.keywords = []
    ∧ FilterRepo.getKeywordLists (FilterRepo.loadFilters [rowA, rowB]) "catX"
        = some ["alpha", "beta"] := by
  refine ⟨by decide, by decide, by decide, by decide⟩

/-- C10 (amended): for every row list, `get_keyword_lists` over the loaded
(active, priority-sorted) filters maps a category to the comma-split keywords
of the LAST filter of that category WITH A NONEMPTY KEYWORDS STRING in
priority-sorted order; rows with an empty keywords string never overwrite,
and a category with no such row is absent from the mapping. -/
theorem c10_keyword_lists_amended (rows : List FilterRepo.FilterRow) (cat : String) :
    FilterRepo.getKeywordLists (FilterRepo.loadFilters rows) cat
      = (FilterRepo.lastMatch? cat (FilterRepo.loadFilters rows)).map
          (fun f => FilterRepo.splitKeywords f.keywords) := by
  rw [FilterRepo.getKeywordLists, FilterRepo.getKeywordLists_lookup]
  cases FilterRepo.lastMatch? cat (FilterRepo.loadFilters rows) <;> rfl
